import Mathlib

/-!
Shallow embedding of `src/login/login_new.rs` (the login-method negotiation
and session-establishment flow of the matrix client) together with proofs
of the spec's claims about it.

Modelling conventions:
* Rust enums and structs become Lean inductives and structures with the
  source's names where possible.
* The interactive run is embedded by explicit state passing: stdin is a
  `List String` of lines (as produced by `read_line`, so lines may still
  carry their trailing newline), and the network collaborators (password
  login, SSO login) are oracles consumed call by call.
* Every console effect of the source is recorded in an `Event` trace so
  that claims about prompts, retries and ordering are statable.
* A run whose environment (stdin lines / oracle answers) is exhausted is
  `RunResult.stuck`: the real program would block there waiting for
  input, so no claim is decided by that branch.
* `.expect(..)` on an `Option` is modelled by `expectSession`, whose
  `none` branch is the distinguished `RunResult.panicked` outcome.
-/

/-- The initial device name when logging in with a device for the first
time (constant `INITIAL_DEVICE_DISPLAY_NAME` in the source). -/
def INITIAL_DEVICE_DISPLAY_NAME : String := "login client"

/-- `ruma::...::IdentityProvider`: an SSO identity provider with a stable
`id` and a human-readable `name`. -/
structure IdentityProvider where
  id : String
  name : String
deriving DecidableEq, Repr

/-- The payload of a server-reported SSO flow: its (possibly empty) list
of identity providers. -/
structure SsoLoginType where
  identity_providers : List IdentityProvider
deriving DecidableEq, Repr

/-- `ruma::...::LoginType`: one server-advertised login flow.  The
payloads of the password, token and application-service variants are
never inspected by the source, so they are omitted; the catch-all `_`
arm of the source's match is `unknown`, tagged with an uninspected
string. -/
inductive LoginType where
  | password
  | sso (sso : SsoLoginType)
  | token
  | applicationService
  | unknown (kind : String)
deriving DecidableEq, Repr

/-- `LoginChoice` from the source: one selectable authentication
method. -/
inductive LoginChoice where
  | password
  | sso
  | ssoIdp (idp : IdentityProvider)
deriving DecidableEq, Repr

/-- The choices a single server flow contributes, read off the `match`
arms of the discovery loop in `login_new` (source lines 67-86). -/
def choicesOfFlow : LoginType → List LoginChoice
  | .password => [LoginChoice.password]
  | .sso sso =>
      if sso.identity_providers.isEmpty then [LoginChoice.sso]
      else sso.identity_providers.map LoginChoice.ssoIdp
  | .token => []
  | .applicationService => []
  | .unknown _ => []

/-- The discovery loop of `login_new`: fold over the server's flows,
appending each flow's contribution to `choices`. -/
def discoverChoices : List LoginType → List LoginChoice
  | [] => []
  | flow :: rest => choicesOfFlow flow ++ discoverChoices rest

/-- Per-flow emission transcribed from the CLAIM's wording (C1), to be
compared with the embedding of the source: a Password flow emits a
Password choice; an SSO flow with zero identity providers emits a single
generic Sso choice; an SSO flow with N >= 1 identity providers emits
exactly N SsoWithProvider choices, one per provider in the
server-reported order; token, application-service and unknown flows emit
nothing. -/
def specFlowChoices : LoginType → List LoginChoice
  | .password => [LoginChoice.password]
  | .sso sso =>
      match sso.identity_providers with
      | [] => [LoginChoice.sso]
      | idp :: idps => (idp :: idps).map LoginChoice.ssoIdp
  | .token => []
  | .applicationService => []
  | .unknown _ => []

/-! ### String trimming and `usize` parsing

`choice_str.trim().parse::<usize>()` and the `.trim()` on the username
and password lines.  Rust's `str::trim` strips leading and trailing
whitespace characters; the inputs this client reads are console lines,
so whitespace is modelled by `Char.isWhitespace` (space, tab, carriage
return, newline).  `usize::from_str` accepts an optional leading `+`
followed by one or more ASCII digits and fails on overflow; `usize` is
64 bits on the supported targets. -/

/-- `str::trim` on a list of characters: drop leading whitespace, then
drop trailing whitespace. -/
def trimChars (cs : List Char) : List Char :=
  ((cs.dropWhile Char.isWhitespace).reverse.dropWhile Char.isWhitespace).reverse

/-- `str::trim` on a string. -/
def rustTrim (s : String) : String :=
  String.mk (trimChars s.toList)

/-- Largest `usize` value (64-bit targets). -/
def usizeMax : Nat := 2 ^ 64 - 1

/-- Numeric value of a list of ASCII digit characters (most significant
first). -/
def digitsVal (ds : List Char) : Nat :=
  ds.foldl (fun a c => a * 10 + (c.toNat - 48)) 0

/-- `usize::from_str` on the digit part: requires a nonempty all-digit
string whose value fits in `usize`.  (Checked accumulation overflows
exactly when the final value exceeds `usizeMax`, since prefixes of a
digit string never exceed the whole.) -/
def parseDigits (ds : List Char) : Option Nat :=
  if ds ≠ [] ∧ ds.all Char.isDigit ∧ digitsVal ds ≤ usizeMax then
    some (digitsVal ds)
  else none

/-- `usize::from_str`: optional leading `+`, then digits. -/
def parseUsize (s : String) : Option Nat :=
  match s.toList with
  | '+' :: rest => parseDigits rest
  | cs => parseDigits cs

/-- Decimal rendering of a natural number (what `{k}` produces in the
claims): big-endian digit characters. -/
def natDecimal (n : Nat) : List Char :=
  if n = 0 then ['0']
  else (Nat.digits 10 n).reverse.map (fun d => Char.ofNat (48 + d))

/-! ### Sessions and the persisted record

`login_new` imports `FullSession` and `build_client` from
`crate::login::persist_session`, a module of this repository that is not
under `src/`; the session types and the serde encoding are therefore
modelled from the spec. -/

/-- Modelled from the spec: `UserSession` from the missing
`persist_session` module — server-issued proof of authentication (user
identifier, device identifier, access credential, optionally a refresh
credential). -/
structure UserSession where
  user_id : String
  device_id : String
  access_token : String
  refresh_token : Option String
deriving DecidableEq, Repr

/-- Modelled from the spec: the opaque `ClientSession` descriptor from
the missing `persist_session` module, produced by `build_client` and
required later to reconstruct the connection (homeserver URL, device id,
access/refresh tokens at the transport layer, or equivalent).  The core
never inspects it, only threads it through. -/
structure ClientSession where
  homeserver : String
  device_id : String
  transport_token : Option String
deriving DecidableEq, Repr

/-- `FullSession` (the `PersistedSession` of the spec), with the field
names used at source lines 105-109: `client_session`, `user_session`,
`sync_token`. -/
structure FullSession where
  client_session : ClientSession
  user_session : UserSession
  sync_token : Option String
deriving DecidableEq, Repr

/-- Modelled from the spec: the self-describing structured values of the
persister's encoding (the serde_json value layer of the missing
`persist_session` module). -/
inductive JValue where
  | null
  | str (s : String)
  | obj (fields : List (String × JValue))

/-- Encode an optional string (absent fields encode as `null`). -/
def encodeOptStr : Option String → JValue
  | none => JValue.null
  | some s => JValue.str s

/-- Decode an optional string. -/
def decodeOptStr : JValue → Option (Option String)
  | JValue.null => some none
  | JValue.str s => some (some s)
  | JValue.obj _ => none

/-- Modelled from the spec: serialize a `UserSession`. -/
def serializeUserSession (u : UserSession) : JValue :=
  JValue.obj
    [("user_id", JValue.str u.user_id),
     ("device_id", JValue.str u.device_id),
     ("access_token", JValue.str u.access_token),
     ("refresh_token", encodeOptStr u.refresh_token)]

/-- Modelled from the spec: deserialize a `UserSession`. -/
def deserializeUserSession : JValue → Option UserSession
  | JValue.obj
      [("user_id", JValue.str uid),
       ("device_id", JValue.str did),
       ("access_token", JValue.str at_),
       ("refresh_token", rt)] =>
      (decodeOptStr rt).map (fun r => ⟨uid, did, at_, r⟩)
  | _ => none

/-- Modelled from the spec: serialize a `ClientSession`. -/
def serializeClientSession (c : ClientSession) : JValue :=
  JValue.obj
    [("homeserver", JValue.str c.homeserver),
     ("device_id", JValue.str c.device_id),
     ("transport_token", encodeOptStr c.transport_token)]

/-- Modelled from the spec: deserialize a `ClientSession`. -/
def deserializeClientSession : JValue → Option ClientSession
  | JValue.obj
      [("homeserver", JValue.str hs),
       ("device_id", JValue.str did),
       ("transport_token", tt)] =>
      (decodeOptStr tt).map (fun t => ⟨hs, did, t⟩)
  | _ => none

/-- Modelled from the spec: serialize a `FullSession` (what
`serde_json::to_string(&FullSession { .. })` encodes at source lines
105-109). -/
def serializeFullSession (fs : FullSession) : JValue :=
  JValue.obj
    [("client_session", serializeClientSession fs.client_session),
     ("user_session", serializeUserSession fs.user_session),
     ("sync_token", encodeOptStr fs.sync_token)]

/-- Modelled from the spec: deserialize a `FullSession`. -/
def deserializeFullSession : JValue → Option FullSession
  | JValue.obj
      [("client_session", cj),
       ("user_session", uj),
       ("sync_token", sj)] =>
      match deserializeClientSession cj, deserializeUserSession uj,
          decodeOptStr sj with
      | some c, some u, some s => some ⟨c, u, s⟩
      | _, _, _ => none
  | _ => none

/-! ### The interactive run -/

/-- Console effects of the source, in program order. -/
inductive Event where
  /-- One pass of the enumerated menu printed by the disambiguation
  loop, with the display label of every choice. -/
  | menu (labels : List String)
  /-- The prompt reading the menu selection. -/
  | promptChoice
  /-- The out-of-range message of the disambiguation loop. -/
  | retryOutOfRange
  /-- The parse-failure message of the disambiguation loop. -/
  | retryParseFail
  /-- The username prompt of the password loop. -/
  | promptUsername
  /-- The password prompt of the password loop. -/
  | promptPassword
  /-- One call of the connection's password-authentication operation,
  with the submitted username, password and device display name. -/
  | submit (username password device : String)
  /-- The error-and-try-again message of the password loop. -/
  | passwordRetry
  /-- One call of the connection's SSO-authentication operation, with
  the identity-provider id it was scoped to, if any. -/
  | ssoStart (idpId : Option String)
  /-- The success report of an authenticator. -/
  | loggedIn (user : String)
  /-- The persister writing the serialized record. -/
  | persisted (fs : FullSession)
deriving DecidableEq, Repr

/-- Errors surfaced to the caller of `login_new`. -/
inductive LoginError where
  /-- "Homeserver login types incompatible with this client". -/
  | noCompatibleLoginMethod
  /-- The SSO operation failed; the `?` operator propagates it. -/
  | ssoFailure
deriving DecidableEq, Repr

/-- Terminal outcome of a (partial) run. -/
inductive RunResult (α : Type) where
  /-- Normal completion. -/
  | ok (a : α)
  /-- An error propagated to the caller. -/
  | err (e : LoginError)
  /-- A `.expect` failed: a logic-error assertion, not a recoverable
  user-facing error. -/
  | panicked (msg : String)
  /-- The modelled environment ran out of stdin lines or oracle
  answers: the real program would block here. -/
  | stuck
deriving DecidableEq, Repr

/-- Answer of the connection's password-authentication operation to one
submission: the server either issues a session or rejects the call
(`credentialShaped` distinguishes a credential rejection from a
transport or protocol failure; the source never inspects it). -/
inductive PassOutcome where
  | ok (session : UserSession)
  | err (credentialShaped : Bool)
deriving DecidableEq, Repr

/-- Answer of the connection's SSO-authentication operation. -/
inductive SsoOutcome where
  | ok (session : UserSession)
  | err
deriving DecidableEq, Repr

/-- What a successful authenticator leaves behind: the session now held
by the client, plus the unconsumed stdin lines and password-oracle
answers. -/
abbrev AuthOk := UserSession × List String × List PassOutcome

/-- `login_with_password` (source lines 157-195): loop — read a
username line and a password line, trim both, submit them with the
fixed device display name; on success report the (trimmed, local)
username and exit; on any error print it and retry. -/
def login_with_password :
    List String → List PassOutcome → List Event × RunResult AuthOk
  | u :: p :: rest, o :: os =>
      let uname := rustTrim u
      let pword := rustTrim p
      let evts := [Event.promptUsername, Event.promptPassword,
                   Event.submit uname pword INITIAL_DEVICE_DISPLAY_NAME]
      (match o with
       | PassOutcome.ok s =>
           (evts ++ [Event.loggedIn uname], RunResult.ok (s, rest, os))
       | PassOutcome.err _ =>
           let r := login_with_password rest os
           (evts ++ [Event.passwordRetry] ++ r.1, r.2))
  | _, _ => ([], RunResult.stuck)

/-- `login_with_sso` (source lines 198-219): invoke the SSO operation,
scoped to the chosen provider's id if any; an error is surfaced by `?`;
on success report the authenticated user id. -/
def login_with_sso (idp : Option IdentityProvider) (out : SsoOutcome)
    (stdin : List String) (pouts : List PassOutcome) :
    List Event × RunResult AuthOk :=
  match out with
  | SsoOutcome.ok s =>
      ([Event.ssoStart (idp.map IdentityProvider.id),
        Event.loggedIn s.user_id],
       RunResult.ok (s, stdin, pouts))
  | SsoOutcome.err =>
      ([Event.ssoStart (idp.map IdentityProvider.id)],
       RunResult.err LoginError.ssoFailure)

/-- `LoginChoice::login` (source lines 39-45): dispatch to the matching
authenticator. -/
def LoginChoice.login (c : LoginChoice) (stdin : List String)
    (pouts : List PassOutcome) (sso : SsoOutcome) :
    List Event × RunResult AuthOk :=
  match c with
  | LoginChoice.password => login_with_password stdin pouts
  | LoginChoice.sso => login_with_sso none sso stdin pouts
  | LoginChoice.ssoIdp idp => login_with_sso (some idp) sso stdin pouts

/-- The `Display` impl of `LoginChoice` (source lines 48-56). -/
def choiceLabel : LoginChoice → String
  | LoginChoice.password => "Username and password"
  | LoginChoice.sso => "SSO"
  | LoginChoice.ssoIdp idp => "SSO via " ++ idp.name

/-- The disambiguation loop of `offer_choices_and_login` (source lines
127-149): print the menu, read a line, trim and parse it as `usize`;
parse failure or an index `>= choices.len()` prints a retry message and
loops; otherwise the loop breaks with the selected index. -/
def resolveLoop (choices : List LoginChoice) :
    List String → List Event × Option (Nat × List String)
  | [] => ([], none)
  | line :: rest =>
      let menuEvts := [Event.menu (choices.map choiceLabel),
                       Event.promptChoice]
      match parseUsize (rustTrim line) with
      | some c =>
          if choices.length ≤ c then
            let r := resolveLoop choices rest
            (menuEvts ++ [Event.retryOutOfRange] ++ r.1, r.2)
          else (menuEvts, some (c, rest))
      | none =>
          let r := resolveLoop choices rest
          (menuEvts ++ [Event.retryParseFail] ++ r.1, r.2)

/-- `offer_choices_and_login` (source lines 124-154): run the
disambiguation loop, then log in with the selected choice. -/
def offer_choices_and_login (choices : List LoginChoice)
    (stdin : List String) (pouts : List PassOutcome) (sso : SsoOutcome) :
    List Event × RunResult AuthOk :=
  match resolveLoop choices stdin with
  | (evts, none) => (evts, RunResult.stuck)
  | (evts, some (choice, rest)) =>
      let r := (choices.getD choice LoginChoice.password).login rest pouts sso
      (evts ++ r.1, r.2)

/-- The environment of one `login_new` run: the client-session
descriptor from `build_client`, the server's flow list, the stdin lines
and the network oracles. -/
structure Env where
  client_session : ClientSession
  flows : List LoginType
  stdin : List String
  passOutcomes : List PassOutcome
  ssoOutcome : SsoOutcome
deriving DecidableEq, Repr

/-- `matrix_auth.session().expect("A logged-in client should have a
session")` (source lines 102-104): `none` is a panic — an assertion
about an internal invariant — not a recoverable error. -/
def expectSession : Option UserSession → RunResult UserSession
  | some s => RunResult.ok s
  | none => RunResult.panicked "A logged-in client should have a session"

/-- The tail of `login_new` after the authenticator (source lines
98-112): obtain the session from the now-authenticated client, build
the `FullSession` record with an absent sync token, serialize and write
it. -/
def persistAfter (cs : ClientSession) :
    List Event × RunResult AuthOk → List Event × RunResult FullSession
  | (evts, RunResult.ok (s, _, _)) =>
      (match expectSession (some s) with
       | RunResult.ok us =>
           let fs : FullSession :=
             { client_session := cs, user_session := us, sync_token := none }
           (evts ++ [Event.persisted fs], RunResult.ok fs)
       | RunResult.err e => (evts, RunResult.err e)
       | RunResult.panicked m => (evts, RunResult.panicked m)
       | RunResult.stuck => (evts, RunResult.stuck))
  | (evts, RunResult.err e) => (evts, RunResult.err e)
  | (evts, RunResult.panicked m) => (evts, RunResult.panicked m)
  | (evts, RunResult.stuck) => (evts, RunResult.stuck)

/-- `login_new` (source lines 59-121): discover the choices, match on
their number (0 → incompatible-homeserver error; 1 → log in with the
single choice; more → offer the menu), then persist the session. -/
def login_new (env : Env) : List Event × RunResult FullSession :=
  match discoverChoices env.flows with
  | [] => ([], RunResult.err LoginError.noCompatibleLoginMethod)
  | [c] =>
      persistAfter env.client_session
        (c.login env.stdin env.passOutcomes env.ssoOutcome)
  | c1 :: c2 :: cs =>
      persistAfter env.client_session
        (offer_choices_and_login (c1 :: c2 :: cs)
          env.stdin env.passOutcomes env.ssoOutcome)

/-- Does a flow match the discovery loop's password arm? -/
def isPasswordFlow : LoginType → Bool
  | LoginType.password => true
  | _ => false

/-- Does a flow match the discovery loop's SSO arm? -/
def isSsoFlow : LoginType → Bool
  | LoginType.sso _ => true
  | _ => false

/-- Claim C3's duplication notion on choices: two Password choices, two
generic Sso choices, or two SsoWithProvider choices with the same
provider id. -/
def dupVariant : LoginChoice → LoginChoice → Bool
  | LoginChoice.password, LoginChoice.password => true
  | LoginChoice.sso, LoginChoice.sso => true
  | LoginChoice.ssoIdp a, LoginChoice.ssoIdp b => a.id == b.id
  | _, _ => false

/-- A choice list is duplicate-free in the sense of claim C3: no two
elements of it are `dupVariant` of each other. -/
def dupFreeChoices : List LoginChoice → Bool
  | [] => true
  | c :: rest => (rest.all fun d => !(dupVariant c d)) && dupFreeChoices rest

/-- A menu input line the disambiguation loop rejects: its trimmed text
fails to parse as `usize`, or parses to an index `>= count`. -/
def badMenuLine (count : Nat) (line : String) : Bool :=
  match parseUsize (rustTrim line) with
  | none => true
  | some c => decide (count ≤ c)

/-- Events of the disambiguation menu (`println` of the enumerated
choices and the selection prompt). -/
def isMenuEvent : Event → Bool
  | Event.menu _ => true
  | Event.promptChoice => true
  | _ => false

/-- A call of the password-authentication operation. -/
def isSubmitEvent : Event → Bool
  | Event.submit _ _ _ => true
  | _ => false

/-- The username prompt of the password loop. -/
def isUsernamePromptEvent : Event → Bool
  | Event.promptUsername => true
  | _ => false

/-- The success report of an authenticator. -/
def isLoggedInEvent : Event → Bool
  | Event.loggedIn _ => true
  | _ => false

/-- The persister writing the record. -/
def isPersistedEvent : Event → Bool
  | Event.persisted _ => true
  | _ => false

/-- Did the run end with an error surfaced to the caller? -/
def surfacedError {α : Type} : RunResult α → Bool
  | RunResult.err _ => true
  | _ => false

/-- A concrete server-issued session used by the concrete runs below. -/
def cexSession : UserSession :=
  { user_id := "@alice:example.org", device_id := "DEV",
    access_token := "tok", refresh_token := none }

/-! ### Theorems -/

theorem choicesOfFlow_eq_specFlowChoices (flow : LoginType) :
    choicesOfFlow flow = specFlowChoices flow := by
  cases flow with
  | sso sso =>
      cases h : sso.identity_providers with
      | nil => simp [choicesOfFlow, specFlowChoices, h]
      | cons idp idps => simp [choicesOfFlow, specFlowChoices, h]
  | _ => rfl

/-- C1: For every server flow list, the discoverer maps flows to choices
exactly as the claim's case table prescribes: the resulting choice list
is the concatenation, in server order, of each flow's emission, where a
Password flow emits `[Password]`, an SSO flow with no providers emits
`[Sso]`, an SSO flow with providers `idp :: idps` emits one
`SsoIdp` per provider in that order (and hence never a bare `Sso`),
and token, application-service and unknown flows emit nothing. -/
theorem discoverChoices_maps_flows_exactly (flows : List LoginType) :
    discoverChoices flows = (flows.map specFlowChoices).flatten ∧
    specFlowChoices LoginType.password = [LoginChoice.password] ∧
    (∀ sso : SsoLoginType, sso.identity_providers = [] →
      specFlowChoices (LoginType.sso sso) = [LoginChoice.sso]) ∧
    (∀ sso : SsoLoginType, sso.identity_providers ≠ [] →
      specFlowChoices (LoginType.sso sso)
        = sso.identity_providers.map LoginChoice.ssoIdp ∧
      LoginChoice.sso ∉ specFlowChoices (LoginType.sso sso)) ∧
    specFlowChoices LoginType.token = [] ∧
    specFlowChoices LoginType.applicationService = [] ∧
    (∀ kind, specFlowChoices (LoginType.unknown kind) = []) := by
  refine ⟨?_, rfl, ?_, ?_, rfl, rfl, fun _ => rfl⟩
  · induction flows with
    | nil => rfl
    | cons flow rest ih =>
        simp [discoverChoices, ih, choicesOfFlow_eq_specFlowChoices]
  · intro sso h
    simp [specFlowChoices, h]
  · intro sso h
    rcases hip : sso.identity_providers with _ | ⟨idp, idps⟩
    · exact absurd hip h
    · constructor
      · simp [specFlowChoices, hip]
      · simp [specFlowChoices, hip]

/-- Witness for C1 at a concrete flow list: one SSO flow with two
providers emits the two provider choices in order and no bare Sso. -/
theorem discoverChoices_maps_flows_exactly_witness :
    discoverChoices
        [LoginType.password,
         LoginType.sso ⟨[⟨"idp1", "One"⟩, ⟨"idp2", "Two"⟩]⟩,
         LoginType.token]
      = [LoginChoice.password,
         LoginChoice.ssoIdp ⟨"idp1", "One"⟩,
         LoginChoice.ssoIdp ⟨"idp2", "Two"⟩] ∧
    ({ identity_providers := [⟨"idp1", "One"⟩, ⟨"idp2", "Two"⟩] } :
        SsoLoginType).identity_providers ≠ [] ∧
    specFlowChoices (LoginType.sso ⟨[⟨"idp1", "One"⟩, ⟨"idp2", "Two"⟩]⟩)
        = [LoginChoice.ssoIdp ⟨"idp1", "One"⟩,
           LoginChoice.ssoIdp ⟨"idp2", "Two"⟩] ∧
    LoginChoice.sso ∉
      specFlowChoices (LoginType.sso ⟨[⟨"idp1", "One"⟩, ⟨"idp2", "Two"⟩]⟩) := by
  refine ⟨by decide, by decide, ?_, ?_⟩
  · exact ((discoverChoices_maps_flows_exactly []).2.2.2.1
      ⟨[⟨"idp1", "One"⟩, ⟨"idp2", "Two"⟩]⟩ (by decide)).1
  · exact ((discoverChoices_maps_flows_exactly []).2.2.2.1
      ⟨[⟨"idp1", "One"⟩, ⟨"idp2", "Two"⟩]⟩ (by decide)).2

theorem digitChar_isDigit {d : Nat} (hd : d < 10) :
    (Char.ofNat (48 + d)).isDigit = true := by
  interval_cases d <;> decide

theorem digitChar_not_whitespace {d : Nat} (hd : d < 10) :
    (Char.ofNat (48 + d)).isWhitespace = false := by
  interval_cases d <;> decide

theorem digitChar_toNat {d : Nat} (hd : d < 10) :
    (Char.ofNat (48 + d)).toNat = 48 + d := by
  interval_cases d <;> decide

theorem natDecimal_ne_nil (n : Nat) : natDecimal n ≠ [] := by
  by_cases h : n = 0
  · simp [natDecimal, h]
  · have h10 : Nat.digits 10 n ≠ [] := Nat.digits_ne_nil_iff_ne_zero.mpr h
    simp [natDecimal, h, h10]

theorem natDecimal_all_digits (n : Nat) :
    (natDecimal n).all Char.isDigit = true := by
  by_cases h : n = 0
  · simp [natDecimal, h]
  · simp only [natDecimal, h, if_false, List.all_eq_true, List.mem_map,
      List.mem_reverse]
    rintro c ⟨d, hd, rfl⟩
    exact digitChar_isDigit (Nat.digits_lt_base (by norm_num) hd)

theorem foldr_digitChar_eq_ofDigits (L : List Nat) (h : ∀ d ∈ L, d < 10) :
    L.foldr (fun d a => a * 10 + ((Char.ofNat (48 + d)).toNat - 48)) 0
      = Nat.ofDigits 10 L := by
  induction L with
  | nil => rfl
  | cons d ds ih =>
      have hd : d < 10 := h d (List.mem_cons_self d ds)
      have ihd := ih (fun x hx => h x (List.mem_cons_of_mem d hx))
      simp only [List.foldr_cons, ihd, Nat.ofDigits_cons,
        digitChar_toNat hd]
      omega

theorem digitsVal_natDecimal (n : Nat) : digitsVal (natDecimal n) = n := by
  by_cases h : n = 0
  · simp [natDecimal, h, digitsVal]
  · have hlt : ∀ d ∈ Nat.digits 10 n, d < 10 :=
      fun d hd => Nat.digits_lt_base (by norm_num) hd
    simp only [natDecimal, h, if_false]
    unfold digitsVal
    rw [List.foldl_map, List.foldl_reverse]
    rw [foldr_digitChar_eq_ofDigits _ hlt, Nat.ofDigits_digits]

theorem parseDigits_natDecimal {n : Nat} (hn : n ≤ usizeMax) :
    parseDigits (natDecimal n) = some n := by
  simp [parseDigits, natDecimal_ne_nil, natDecimal_all_digits,
    digitsVal_natDecimal, hn]

theorem decodeOptStr_encodeOptStr (o : Option String) :
    decodeOptStr (encodeOptStr o) = some o := by
  cases o <;> rfl

theorem deserialize_serialize_userSession (u : UserSession) :
    deserializeUserSession (serializeUserSession u) = some u := by
  cases u with
  | mk uid did at_ rt =>
      cases rt <;> rfl

theorem deserialize_serialize_clientSession (c : ClientSession) :
    deserializeClientSession (serializeClientSession c) = some c := by
  cases c with
  | mk hs did tt =>
      cases tt <;> rfl

/-- C9: serializing the persisted record
`{client_session := C, user_session := U, sync_token := none}` with the
persister's encoding and deserializing it yields the original record. -/
theorem fullSession_roundtrip (C : ClientSession) (U : UserSession) :
    deserializeFullSession
        (serializeFullSession
          { client_session := C, user_session := U, sync_token := none })
      = some { client_session := C, user_session := U, sync_token := none } := by
  simp only [serializeFullSession, deserializeFullSession,
    deserialize_serialize_clientSession, deserialize_serialize_userSession,
    decodeOptStr_encodeOptStr]


theorem login_with_password_all_events (q : Event → Bool)
    (h1 : q Event.promptUsername = true) (h2 : q Event.promptPassword = true)
    (h3 : ∀ u p d, q (Event.submit u p d) = true)
    (h4 : q Event.passwordRetry = true)
    (h5 : ∀ u, q (Event.loggedIn u) = true)
    (stdin : List String) (pouts : List PassOutcome) :
    (login_with_password stdin pouts).1.all q = true := by
  induction stdin, pouts using login_with_password.induct with
  | case1 u p rest os s =>
      simp [login_with_password, h1, h2, h3, h5]
  | case2 u p rest os b ih =>
      simp [login_with_password, List.all_append, h1, h2, h3, h4, ih]
  | case3 t x hno =>
      rcases t with _ | ⟨u, t1⟩
      · simp [login_with_password]
      · rcases t1 with _ | ⟨p, rest⟩
        · simp [login_with_password]
        · rcases x with _ | ⟨o, os⟩
          · simp [login_with_password]
          · exact (hno u p rest o os rfl rfl).elim

theorem login_with_password_ok_any_loggedIn (stdin : List String)
    (pouts : List PassOutcome) (a : AuthOk)
    (h : (login_with_password stdin pouts).2 = RunResult.ok a) :
    ((login_with_password stdin pouts).1.any isLoggedInEvent) = true := by
  induction stdin, pouts using login_with_password.induct with
  | case1 u p rest os s =>
      simp [login_with_password, isLoggedInEvent]
  | case2 u p rest os b ih =>
      simp only [login_with_password] at h
      have := ih h
      simp [login_with_password, List.any_append, this]
  | case3 t x hno =>
      rcases t with _ | ⟨u, t1⟩
      · simp [login_with_password] at h
      · rcases t1 with _ | ⟨p, rest⟩
        · simp [login_with_password] at h
        · rcases x with _ | ⟨o, os⟩
          · simp [login_with_password] at h
          · exact (hno u p rest o os rfl rfl).elim

/-- C7: for a connection stub that rejects the first two credential
submissions and accepts the third, the password authenticator prompts
for a username/password pair exactly three times, submits each pair
trimmed of surrounding whitespace with the fixed device display name
"login client", and terminates successfully reporting the (trimmed)
username of the third attempt. -/
theorem password_rejects_twice_then_accepts
    (u1 p1 u2 p2 u3 p3 : String) (rest : List String)
    (b1 b2 : Bool) (s : UserSession) (os : List PassOutcome) :
    login_with_password (u1 :: p1 :: u2 :: p2 :: u3 :: p3 :: rest)
        (PassOutcome.err b1 :: PassOutcome.err b2 :: PassOutcome.ok s :: os)
      = ([Event.promptUsername, Event.promptPassword,
          Event.submit (rustTrim u1) (rustTrim p1) INITIAL_DEVICE_DISPLAY_NAME,
          Event.passwordRetry,
          Event.promptUsername, Event.promptPassword,
          Event.submit (rustTrim u2) (rustTrim p2) INITIAL_DEVICE_DISPLAY_NAME,
          Event.passwordRetry,
          Event.promptUsername, Event.promptPassword,
          Event.submit (rustTrim u3) (rustTrim p3) INITIAL_DEVICE_DISPLAY_NAME,
          Event.loggedIn (rustTrim u3)],
         RunResult.ok (s, rest, os)) ∧
    (login_with_password (u1 :: p1 :: u2 :: p2 :: u3 :: p3 :: rest)
        (PassOutcome.err b1 :: PassOutcome.err b2 :: PassOutcome.ok s :: os)).1.countP
        isUsernamePromptEvent = 3 ∧
    (login_with_password (u1 :: p1 :: u2 :: p2 :: u3 :: p3 :: rest)
        (PassOutcome.err b1 :: PassOutcome.err b2 :: PassOutcome.ok s :: os)).1.countP
        isSubmitEvent = 3 ∧
    INITIAL_DEVICE_DISPLAY_NAME = "login client" := by
  refine ⟨?_, ?_, ?_, rfl⟩ <;>
    simp [login_with_password, isUsernamePromptEvent, isSubmitEvent,
      List.countP_cons]

/-- C2 counterexample: with a stub connection whose first answer is a
failure that is NOT credential-shaped (a transport or protocol failure)
and whose second accepts, the password loop does not surface the error
and does not abort the run: it re-prompts, submits a second time and
completes successfully (two submissions, one retry message) — refuting,
at this concrete input, that a non-credential-shaped failure is
surfaced to the caller and aborts the run. -/
theorem password_transport_error_retried :
    (login_with_password ["alice\n", "pw\n", "alice\n", "pw2\n"]
        [PassOutcome.err false, PassOutcome.ok cexSession]).2
      = RunResult.ok (cexSession, [], []) ∧
    surfacedError (login_with_password ["alice\n", "pw\n", "alice\n", "pw2\n"]
        [PassOutcome.err false, PassOutcome.ok cexSession]).2 = false ∧
    (login_with_password ["alice\n", "pw\n", "alice\n", "pw2\n"]
        [PassOutcome.err false, PassOutcome.ok cexSession]).1.countP
        isSubmitEvent = 2 ∧
    (login_with_password ["alice\n", "pw\n", "alice\n", "pw2\n"]
        [PassOutcome.err false, PassOutcome.ok cexSession]).1.countP
        (fun e => e == Event.passwordRetry) = 1 := by
  exact ⟨rfl, rfl, rfl, rfl⟩

/-- C2 (amended): the password loop treats every login failure alike —
whatever the error's shape (credential-shaped or not), it prints the
error, re-prompts for fresh credentials and retries; no error is ever
surfaced to the caller from this loop, which terminates only on success
(or blocks waiting for more input). -/
theorem password_loop_retries_every_error (u p : String)
    (rest : List String) (b : Bool) (os : List PassOutcome) :
    login_with_password (u :: p :: rest) (PassOutcome.err b :: os)
      = ([Event.promptUsername, Event.promptPassword,
          Event.submit (rustTrim u) (rustTrim p) INITIAL_DEVICE_DISPLAY_NAME,
          Event.passwordRetry] ++ (login_with_password rest os).1,
         (login_with_password rest os).2) ∧
    (∀ stdin pouts,
      surfacedError (login_with_password stdin pouts).2 = false) := by
  constructor
  · simp [login_with_password]
  · intro stdin pouts
    induction stdin, pouts using login_with_password.induct with
    | case1 u2 p2 rest2 os2 s => simp [login_with_password, surfacedError]
    | case2 u2 p2 rest2 os2 b2 ih =>
        simpa only [login_with_password] using ih
    | case3 t x hno =>
        rcases t with _ | ⟨u2, t1⟩
        · simp [login_with_password, surfacedError]
        · rcases t1 with _ | ⟨p2, rest2⟩
          · simp [login_with_password, surfacedError]
          · rcases x with _ | ⟨o, os2⟩
            · simp [login_with_password, surfacedError]
            · exact (hno u2 p2 rest2 o os2 rfl rfl).elim

theorem resolveLoop_all_events (choices : List LoginChoice) (q : Event → Bool)
    (hm : ∀ ls, q (Event.menu ls) = true) (hp : q Event.promptChoice = true)
    (ho : q Event.retryOutOfRange = true) (hf : q Event.retryParseFail = true)
    (stdin : List String) :
    (resolveLoop choices stdin).1.all q = true := by
  induction stdin with
  | nil => simp [resolveLoop]
  | cons line rest ih =>
      cases hparse : parseUsize (rustTrim line) with
      | none => simp [resolveLoop, hparse, List.all_append, hm, hp, hf, ih]
      | some c =>
          by_cases hle : choices.length ≤ c
          · simp [resolveLoop, hparse, hle, List.all_append, hm, hp, ho, ih]
          · simp [resolveLoop, hparse, hle, hm, hp]

theorem login_choice_all_events (q : Event → Bool)
    (h1 : q Event.promptUsername = true) (h2 : q Event.promptPassword = true)
    (h3 : ∀ u p d, q (Event.submit u p d) = true)
    (h4 : q Event.passwordRetry = true)
    (h5 : ∀ u, q (Event.loggedIn u) = true)
    (h6 : ∀ i, q (Event.ssoStart i) = true)
    (c : LoginChoice) (stdin : List String) (pouts : List PassOutcome)
    (sso : SsoOutcome) :
    ((c.login stdin pouts sso).1.all q) = true := by
  cases c with
  | password =>
      exact login_with_password_all_events q h1 h2 h3 h4 h5 stdin pouts
  | sso =>
      cases sso <;> simp [LoginChoice.login, login_with_sso, h5, h6]
  | ssoIdp idp =>
      cases sso <;> simp [LoginChoice.login, login_with_sso, h5, h6]

theorem login_choice_ok_any_loggedIn (c : LoginChoice) (stdin : List String)
    (pouts : List PassOutcome) (sso : SsoOutcome) (a : AuthOk)
    (h : (c.login stdin pouts sso).2 = RunResult.ok a) :
    ((c.login stdin pouts sso).1.any isLoggedInEvent) = true := by
  cases c with
  | password =>
      exact login_with_password_ok_any_loggedIn stdin pouts a h
  | sso =>
      cases sso with
      | ok s => simp [LoginChoice.login, login_with_sso, isLoggedInEvent]
      | err => simp [LoginChoice.login, login_with_sso] at h
  | ssoIdp idp =>
      cases sso with
      | ok s => simp [LoginChoice.login, login_with_sso, isLoggedInEvent]
      | err => simp [LoginChoice.login, login_with_sso] at h

theorem offer_all_events (q : Event → Bool)
    (hm : ∀ ls, q (Event.menu ls) = true) (hp : q Event.promptChoice = true)
    (ho : q Event.retryOutOfRange = true) (hf : q Event.retryParseFail = true)
    (h1 : q Event.promptUsername = true) (h2 : q Event.promptPassword = true)
    (h3 : ∀ u p d, q (Event.submit u p d) = true)
    (h4 : q Event.passwordRetry = true)
    (h5 : ∀ u, q (Event.loggedIn u) = true)
    (h6 : ∀ i, q (Event.ssoStart i) = true)
    (choices : List LoginChoice) (stdin : List String)
    (pouts : List PassOutcome) (sso : SsoOutcome) :
    ((offer_choices_and_login choices stdin pouts sso).1.all q) = true := by
  rcases hres : resolveLoop choices stdin with ⟨evts, r⟩
  have hre : evts.all q = true := by
    have := resolveLoop_all_events choices q hm hp ho hf stdin
    rw [hres] at this
    exact this
  rcases r with _ | ⟨i, rest⟩
  · simp [offer_choices_and_login, hres, hre]
  · simp only [offer_choices_and_login, hres, List.all_append,
      Bool.and_eq_true]
    exact ⟨hre, login_choice_all_events q h1 h2 h3 h4 h5 h6 _ rest pouts sso⟩

theorem offer_ok_any_loggedIn (choices : List LoginChoice)
    (stdin : List String) (pouts : List PassOutcome) (sso : SsoOutcome)
    (a : AuthOk)
    (h : (offer_choices_and_login choices stdin pouts sso).2 = RunResult.ok a) :
    ((offer_choices_and_login choices stdin pouts sso).1.any isLoggedInEvent)
      = true := by
  rcases hres : resolveLoop choices stdin with ⟨evts, r⟩
  rcases r with _ | ⟨i, rest⟩
  · simp [offer_choices_and_login, hres] at h
  · simp only [offer_choices_and_login, hres] at h ⊢
    have := login_choice_ok_any_loggedIn (choices.getD i LoginChoice.password)
      rest pouts sso a h
    simp only [List.any_append, this, Bool.or_true]

theorem persistAfter_spec (cs : ClientSession) (evts1 : List Event)
    (res1 : RunResult AuthOk)
    (hall : (evts1.all fun e => !(isPersistedEvent e)) = true)
    (hlog : ∀ a, res1 = RunResult.ok a → evts1.any isLoggedInEvent = true) :
    ∀ fs, Event.persisted fs ∈ (persistAfter cs (evts1, res1)).1 →
      (persistAfter cs (evts1, res1)).2 = RunResult.ok fs ∧
      ∃ pre, (persistAfter cs (evts1, res1)).1 = pre ++ [Event.persisted fs] ∧
        pre.any isLoggedInEvent = true := by
  have hnotmem : ∀ fs, Event.persisted fs ∉ evts1 := by
    intro fs hmem
    have := List.all_eq_true.mp hall _ hmem
    simp [isPersistedEvent] at this
  intro fs hmem
  cases res1 with
  | ok a =>
      rcases a with ⟨s, rest, os⟩
      simp only [persistAfter, expectSession] at hmem ⊢
      rcases List.mem_append.mp hmem with hin | hin
      · exact ((hnotmem fs) hin).elim
      · have hfs : fs = (⟨cs, s, none⟩ : FullSession) := by
          simpa using hin
        subst hfs
        exact ⟨rfl, evts1, rfl, hlog (s, rest, os) rfl⟩
  | err e =>
      simp only [persistAfter] at hmem
      exact ((hnotmem fs) hmem).elim
  | panicked m =>
      simp only [persistAfter] at hmem
      exact ((hnotmem fs) hmem).elim
  | stuck =>
      simp only [persistAfter] at hmem
      exact ((hnotmem fs) hmem).elim

/-- C4: if the discoverer's resulting choice sequence is empty, the run
fails immediately with the no-compatible-login-method error; the event
trace is empty, so no retry happens and neither an authenticator nor
the persister is ever invoked. -/
theorem login_new_no_compatible_method (env : Env)
    (h : discoverChoices env.flows = []) :
    login_new env = ([], RunResult.err LoginError.noCompatibleLoginMethod) := by
  unfold login_new
  rw [h]

/-- Witness for C4: a server reporting only token, application-service
and unknown flows yields an empty choice list and the immediate
failure. -/
theorem login_new_no_compatible_method_witness :
    discoverChoices [LoginType.token, LoginType.applicationService,
        LoginType.unknown "m.weird"] = [] ∧
    login_new
        { client_session := ⟨"https://hs", "dev", none⟩,
          flows := [LoginType.token, LoginType.applicationService,
                    LoginType.unknown "m.weird"],
          stdin := ["0\n"],
          passOutcomes := [PassOutcome.ok cexSession],
          ssoOutcome := SsoOutcome.ok cexSession }
      = ([], RunResult.err LoginError.noCompatibleLoginMethod) := by
  exact ⟨rfl, login_new_no_compatible_method _ rfl⟩

/-- C6: when the discoverer yields exactly one choice, `login_new`
hands that choice's authenticator the whole stdin stream (no line of
user input is consumed beforehand) and the run's trace contains no menu
and no selection prompt. -/
theorem login_new_single_choice_auto_selects (env : Env) (c : LoginChoice)
    (h : discoverChoices env.flows = [c]) :
    login_new env
      = persistAfter env.client_session
          (c.login env.stdin env.passOutcomes env.ssoOutcome) ∧
    ((login_new env).1.all fun e => !(isMenuEvent e)) = true := by
  have h1 : login_new env
      = persistAfter env.client_session
          (c.login env.stdin env.passOutcomes env.ssoOutcome) := by
    unfold login_new
    rw [h]
  refine ⟨h1, ?_⟩
  rw [h1]
  rcases hra : c.login env.stdin env.passOutcomes env.ssoOutcome with ⟨evts1, res1⟩
  have hall : (evts1.all fun e => !(isMenuEvent e)) = true := by
    have := login_choice_all_events (fun e => !(isMenuEvent e))
      rfl rfl (fun _ _ _ => rfl) rfl (fun _ => rfl) (fun _ => rfl)
      c env.stdin env.passOutcomes env.ssoOutcome
    rw [hra] at this
    exact this
  cases res1 with
  | ok a =>
      rcases a with ⟨s, rest, os⟩
      simp only [persistAfter, expectSession, List.all_append,
        Bool.and_eq_true]
      exact ⟨hall, rfl⟩
  | err e => simpa [persistAfter] using hall
  | panicked m => simpa [persistAfter] using hall
  | stuck => simpa [persistAfter] using hall

/-- Witness for C6: a server reporting only a password flow; the run
authenticates from the untouched stdin and shows no menu. -/
theorem login_new_single_choice_auto_selects_witness :
    discoverChoices [LoginType.password] = [LoginChoice.password] ∧
    (login_new
        { client_session := ⟨"https://hs", "dev", none⟩,
          flows := [LoginType.password],
          stdin := ["alice\n", "pw\n"],
          passOutcomes := [PassOutcome.ok cexSession],
          ssoOutcome := SsoOutcome.err }
      = persistAfter ⟨"https://hs", "dev", none⟩
          (LoginChoice.password.login ["alice\n", "pw\n"]
            [PassOutcome.ok cexSession] SsoOutcome.err) ∧
    ((login_new
        { client_session := ⟨"https://hs", "dev", none⟩,
          flows := [LoginType.password],
          stdin := ["alice\n", "pw\n"],
          passOutcomes := [PassOutcome.ok cexSession],
          ssoOutcome := SsoOutcome.err }).1.all
        fun e => !(isMenuEvent e)) = true) := by
  exact ⟨rfl, login_new_single_choice_auto_selects _ LoginChoice.password rfl⟩

/-- C8: a `FullSession` record is persisted only in a run whose
authenticator succeeded: every persisted event in the trace of
`login_new` is the trace's final event, the run terminates successfully
with that record, and an authenticator success report strictly precedes
the persist; and obtaining the user session from an unauthenticated
client is a loud panic (`.expect` on a missing session), not a
recoverable user-facing error. -/
theorem persistence_strictly_after_authentication (env : Env) :
    (∀ fs, Event.persisted fs ∈ (login_new env).1 →
      (login_new env).2 = RunResult.ok fs ∧
      ∃ pre, (login_new env).1 = pre ++ [Event.persisted fs] ∧
        pre.any isLoggedInEvent = true) ∧
    expectSession none
      = RunResult.panicked "A logged-in client should have a session" := by
  refine ⟨?_, rfl⟩
  intro fs hmem
  cases hd : discoverChoices env.flows with
  | nil =>
      have hln : login_new env
          = ([], RunResult.err LoginError.noCompatibleLoginMethod) := by
        unfold login_new
        rw [hd]
      rw [hln] at hmem
      simp at hmem
  | cons c cs =>
      cases cs with
      | nil =>
          have hln : login_new env
              = persistAfter env.client_session
                  (c.login env.stdin env.passOutcomes env.ssoOutcome) := by
            unfold login_new
            rw [hd]
          rw [hln] at hmem ⊢
          rcases hra : c.login env.stdin env.passOutcomes env.ssoOutcome
            with ⟨evts1, res1⟩
          rw [hra] at hmem
          refine persistAfter_spec env.client_session evts1 res1 ?_ ?_ fs hmem
          · have := login_choice_all_events (fun e => !(isPersistedEvent e))
              rfl rfl (fun _ _ _ => rfl) rfl (fun _ => rfl) (fun _ => rfl)
              c env.stdin env.passOutcomes env.ssoOutcome
            rw [hra] at this
            exact this
          · intro a ha
            have := login_choice_ok_any_loggedIn c env.stdin env.passOutcomes
              env.ssoOutcome a (by rw [hra]; exact ha)
            rw [hra] at this
            exact this
      | cons c2 cs2 =>
          have hln : login_new env
              = persistAfter env.client_session
                  (offer_choices_and_login (c :: c2 :: cs2) env.stdin
                    env.passOutcomes env.ssoOutcome) := by
            unfold login_new
            rw [hd]
          rw [hln] at hmem ⊢
          rcases hra : offer_choices_and_login (c :: c2 :: cs2) env.stdin
              env.passOutcomes env.ssoOutcome with ⟨evts1, res1⟩
          rw [hra] at hmem
          refine persistAfter_spec env.client_session evts1 res1 ?_ ?_ fs hmem
          · have := offer_all_events (fun e => !(isPersistedEvent e))
              (fun _ => rfl) rfl rfl rfl rfl rfl (fun _ _ _ => rfl) rfl
              (fun _ => rfl) (fun _ => rfl)
              (c :: c2 :: cs2) env.stdin env.passOutcomes env.ssoOutcome
            rw [hra] at this
            exact this
          · intro a ha
            have := offer_ok_any_loggedIn (c :: c2 :: cs2) env.stdin
              env.passOutcomes env.ssoOutcome a (by rw [hra]; exact ha)
            rw [hra] at this
            exact this

theorem dupFreeChoices_iff_pairwise (cs : List LoginChoice) :
    dupFreeChoices cs = true ↔
      cs.Pairwise (fun a b => dupVariant a b = false) := by
  induction cs with
  | nil => simp [dupFreeChoices]
  | cons c rest ih =>
      simp [dupFreeChoices, List.pairwise_cons, ih, List.all_eq_true,
        and_comm]

theorem mem_discoverChoices {ch : LoginChoice} {flows : List LoginType} :
    ch ∈ discoverChoices flows ↔ ∃ f ∈ flows, ch ∈ choicesOfFlow f := by
  induction flows with
  | nil => simp [discoverChoices]
  | cons f rest ih => simp [discoverChoices, List.mem_append, ih]

theorem mem_choicesOfFlow_password {f : LoginType}
    (h : LoginChoice.password ∈ choicesOfFlow f) :
    isPasswordFlow f = true := by
  cases f with
  | password => rfl
  | sso s =>
      by_cases he : s.identity_providers.isEmpty = true <;>
        simp [choicesOfFlow, he] at h
  | token => simp [choicesOfFlow] at h
  | applicationService => simp [choicesOfFlow] at h
  | unknown k => simp [choicesOfFlow] at h

theorem mem_choicesOfFlow_sso {f : LoginType}
    (h : LoginChoice.sso ∈ choicesOfFlow f) : isSsoFlow f = true := by
  cases f with
  | password => simp [choicesOfFlow] at h
  | sso s => rfl
  | token => simp [choicesOfFlow] at h
  | applicationService => simp [choicesOfFlow] at h
  | unknown k => simp [choicesOfFlow] at h

theorem mem_choicesOfFlow_ssoIdp {f : LoginType} {idp : IdentityProvider}
    (h : LoginChoice.ssoIdp idp ∈ choicesOfFlow f) : isSsoFlow f = true := by
  cases f with
  | password => simp [choicesOfFlow] at h
  | sso s => rfl
  | token => simp [choicesOfFlow] at h
  | applicationService => simp [choicesOfFlow] at h
  | unknown k => simp [choicesOfFlow] at h

/-- C3 counterexample: a server flow list that repeats the password
flow makes the discoverer emit two Password choices — the choice list
handed to the resolver is NOT duplicate-free for every server flow
list, because the discoverer performs no deduplication. -/
theorem discoverChoices_duplicates_for_repeated_flows :
    discoverChoices [LoginType.password, LoginType.password]
      = [LoginChoice.password, LoginChoice.password] ∧
    dupFreeChoices
        (discoverChoices [LoginType.password, LoginType.password])
      = false := by
  exact ⟨rfl, rfl⟩

/-- C3 (amended): for every server flow list that itself contains no
duplicates — at most one password flow, at most one SSO flow, and
pairwise-distinct identity-provider ids inside each SSO flow — the
discoverer's choice list has no duplicate variants: no two Password
choices, no two generic Sso choices, and no two SsoWithProvider
choices with the same provider id.  (The discoverer performs no
deduplication, so for a flow list repeating a flow the counterexample
shows the choice list repeats the choice.) -/
theorem discoverChoices_dupFree_of_dupFree_flows (flows : List LoginType)
    (hp : flows.countP isPasswordFlow ≤ 1)
    (hs : flows.countP isSsoFlow ≤ 1)
    (hid : ∀ s : SsoLoginType, LoginType.sso s ∈ flows →
      (s.identity_providers.map IdentityProvider.id).Nodup) :
    dupFreeChoices (discoverChoices flows) = true := by
  rw [dupFreeChoices_iff_pairwise]
  induction flows with
  | nil => simp [discoverChoices]
  | cons f rest ih =>
      rw [List.countP_cons] at hp hs
      have hpr : rest.countP isPasswordFlow ≤ 1 :=
        le_trans (Nat.le_add_right _ _) hp
      have hsr : rest.countP isSsoFlow ≤ 1 :=
        le_trans (Nat.le_add_right _ _) hs
      have hidr : ∀ s : SsoLoginType, LoginType.sso s ∈ rest →
          (s.identity_providers.map IdentityProvider.id).Nodup :=
        fun s hsm => hid s (List.mem_cons_of_mem f hsm)
      have ihr := ih hpr hsr hidr
      show ((choicesOfFlow f ++ discoverChoices rest).Pairwise
        fun a b => dupVariant a b = false)
      rw [List.pairwise_append]
      refine ⟨?_, ihr, ?_⟩
      · cases f with
        | password => simp [choicesOfFlow]
        | sso s =>
            cases hip : s.identity_providers.isEmpty with
            | true =>
                have hcf : choicesOfFlow (LoginType.sso s)
                    = [LoginChoice.sso] := by
                  simp [choicesOfFlow, hip]
                rw [hcf]
                simp
            | false =>
                have hcf : choicesOfFlow (LoginType.sso s)
                    = s.identity_providers.map LoginChoice.ssoIdp := by
                  simp [choicesOfFlow, hip]
                rw [hcf, List.pairwise_map]
                have hnd := hid s (List.mem_cons_self (LoginType.sso s) rest)
                have hnd2 : (s.identity_providers.map
                    IdentityProvider.id).Pairwise (fun x y => x ≠ y) := hnd
                have hnd3 : s.identity_providers.Pairwise
                    (fun a b => a.id ≠ b.id) := List.pairwise_map.mp hnd2
                exact hnd3.imp fun hne => beq_eq_false_iff_ne.mpr hne
        | token => simp [choicesOfFlow]
        | applicationService => simp [choicesOfFlow]
        | unknown k => simp [choicesOfFlow]
      · intro a ha b hb
        cases f with
        | password =>
            have ha2 : a = LoginChoice.password := by
              simpa [choicesOfFlow] using ha
            subst ha2
            have hzero : rest.countP isPasswordFlow = 0 := by
              rw [if_pos (show isPasswordFlow LoginType.password = true
                from rfl)] at hp
              omega
            have hnp := List.countP_eq_zero.mp hzero
            have hbne : b ≠ LoginChoice.password := by
              intro hbe
              subst hbe
              rcases mem_discoverChoices.mp hb with ⟨g, hg, hgb⟩
              exact hnp g hg (mem_choicesOfFlow_password hgb)
            cases b with
            | password => exact absurd rfl hbne
            | sso => rfl
            | ssoIdp idp => rfl
        | sso s =>
            have hzero : rest.countP isSsoFlow = 0 := by
              rw [if_pos (show isSsoFlow (LoginType.sso s) = true
                from rfl)] at hs
              omega
            have hns := List.countP_eq_zero.mp hzero
            have hbp : b = LoginChoice.password := by
              cases b with
              | password => rfl
              | sso =>
                  rcases mem_discoverChoices.mp hb with ⟨g, hg, hgb⟩
                  exact absurd (mem_choicesOfFlow_sso hgb) (hns g hg)
              | ssoIdp idp =>
                  rcases mem_discoverChoices.mp hb with ⟨g, hg, hgb⟩
                  exact absurd (mem_choicesOfFlow_ssoIdp hgb) (hns g hg)
            subst hbp
            cases hip : s.identity_providers.isEmpty with
            | true =>
                have hcf : choicesOfFlow (LoginType.sso s)
                    = [LoginChoice.sso] := by
                  simp [choicesOfFlow, hip]
                rw [hcf] at ha
                have ha2 : a = LoginChoice.sso := by simpa using ha
                subst ha2
                rfl
            | false =>
                have hcf : choicesOfFlow (LoginType.sso s)
                    = s.identity_providers.map LoginChoice.ssoIdp := by
                  simp [choicesOfFlow, hip]
                rw [hcf] at ha
                rcases List.mem_map.mp ha with ⟨idp, _, rfl⟩
                rfl
        | token => simp [choicesOfFlow] at ha
        | applicationService => simp [choicesOfFlow] at ha
        | unknown k => simp [choicesOfFlow] at ha

/-- Witness for C3 (amended) at a concrete duplicate-free flow list:
one password flow and one SSO flow with two distinct providers give a
duplicate-free choice list. -/
theorem discoverChoices_dupFree_of_dupFree_flows_witness :
    dupFreeChoices
        (discoverChoices
          [LoginType.password,
           LoginType.sso ⟨[⟨"idp1", "One"⟩, ⟨"idp2", "Two"⟩]⟩,
           LoginType.token])
      = true := by
  refine discoverChoices_dupFree_of_dupFree_flows
    [LoginType.password,
     LoginType.sso ⟨[⟨"idp1", "One"⟩, ⟨"idp2", "Two"⟩]⟩,
     LoginType.token]
    (by decide) (by decide) ?_
  intro s hsm
  simp only [List.mem_cons, List.not_mem_nil, or_false] at hsm
  rcases hsm with h | h | h
  · simp at h
  · injection h with h2
    subst h2
    decide
  · simp at h

theorem dropWhile_append_forall {p : Char → Bool} (l1 l2 : List Char)
    (h : ∀ c ∈ l1, p c = true) :
    (l1 ++ l2).dropWhile p = l2.dropWhile p := by
  induction l1 with
  | nil => rfl
  | cons c cs ih =>
      simp only [List.cons_append, List.dropWhile_cons,
        h c (List.mem_cons_self c cs), if_true]
      exact ih fun x hx => h x (List.mem_cons_of_mem c hx)

theorem isDigit_not_isWhitespace {c : Char} (h : c.isDigit = true) :
    c.isWhitespace = false := by
  by_contra hw
  rw [Bool.not_eq_false] at hw
  have hws : c = ' ' ∨ c = '\t' ∨ c = '\x0d' ∨ c = '\n' := by
    simpa [Char.isWhitespace, or_assoc] using hw
  rcases hws with h1 | h1 | h1 | h1 <;> subst h1 <;>
    exact absurd h (by decide)

theorem trimChars_padding (d ws1 ws2 : List Char) (hne : d ≠ [])
    (hd : d.all Char.isDigit = true)
    (h1 : ∀ c ∈ ws1, c.isWhitespace = true)
    (h2 : ∀ c ∈ ws2, c.isWhitespace = true) :
    trimChars (ws1 ++ (d ++ ws2)) = d := by
  unfold trimChars
  rw [dropWhile_append_forall ws1 (d ++ ws2) h1]
  rcases d with _ | ⟨hdc, tl⟩
  · exact absurd rfl hne
  have hdig := List.all_eq_true.mp hd
  have hdc_digit : hdc.isDigit = true :=
    hdig hdc (List.mem_cons_self hdc tl)
  rw [List.cons_append, List.dropWhile_cons,
    isDigit_not_isWhitespace hdc_digit]
  simp only [Bool.false_eq_true, if_false]
  rw [← List.cons_append, List.reverse_append,
    dropWhile_append_forall ws2.reverse (hdc :: tl).reverse
      (fun c hc => h2 c (List.mem_reverse.mp hc))]
  rcases hrev : (hdc :: tl).reverse with _ | ⟨x, xs⟩
  · exact absurd hrev (by simp)
  have hx : x.isDigit = true := by
    have hx1 : x ∈ (hdc :: tl).reverse := by
      rw [hrev]
      exact List.mem_cons_self x xs
    exact hdig x (List.mem_reverse.mp hx1)
  rw [List.dropWhile_cons, isDigit_not_isWhitespace hx]
  simp only [Bool.false_eq_true, if_false]
  rw [← hrev, List.reverse_reverse]

theorem rustTrim_padding (d ws1 ws2 : List Char) (hne : d ≠ [])
    (hd : d.all Char.isDigit = true)
    (h1 : ∀ c ∈ ws1, c.isWhitespace = true)
    (h2 : ∀ c ∈ ws2, c.isWhitespace = true) :
    rustTrim (String.mk (ws1 ++ (d ++ ws2))) = String.mk d := by
  unfold rustTrim
  have hl : (String.mk (ws1 ++ (d ++ ws2))).toList = ws1 ++ (d ++ ws2) := rfl
  rw [hl, trimChars_padding d ws1 ws2 hne hd h1 h2]

theorem rustTrim_mk_digits (d : List Char) (hne : d ≠ [])
    (hd : d.all Char.isDigit = true) :
    rustTrim (String.mk d) = String.mk d := by
  have := rustTrim_padding d [] [] hne hd (by simp) (by simp)
  simpa using this

theorem parseUsize_mk_of_digits (d : List Char) (hne : d ≠ [])
    (hd : d.all Char.isDigit = true) :
    parseUsize (String.mk d) = parseDigits d := by
  rcases d with _ | ⟨c, cs⟩
  · exact absurd rfl hne
  have hc : c.isDigit = true :=
    List.all_eq_true.mp hd c (List.mem_cons_self c cs)
  have hcp : c ≠ '+' := by
    intro he
    subst he
    exact absurd hc (by decide)
  unfold parseUsize
  have hl : (String.mk (c :: cs)).toList = c :: cs := rfl
  rw [hl]
  split
  · next heq =>
      injection heq with hc2 _
      exact absurd hc2 hcp
  · rfl

theorem parseDigits_natDecimal_overflow {n : Nat} (h : usizeMax < n) :
    parseDigits (natDecimal n) = none := by
  have : ¬ digitsVal (natDecimal n) ≤ usizeMax := by
    rw [digitsVal_natDecimal]
    omega
  simp [parseDigits, this]

/-- C5: with k >= 2 candidates, a line whose trimmed text fails to
parse as a non-negative integer or parses to an index >= k (so in
particular "-1", "abc", and the decimal rendering of k itself) makes
the disambiguation loop print a retry message and re-enter with the
remaining input — for any number of such lines, with no attempt limit
and no error — while a line parsing to i < k exits the loop selecting
candidate i (and "0" parses to 0, selecting candidate 0). -/
theorem resolver_retries_invalid_and_selects_valid
    (choices : List LoginChoice) (hk : 2 ≤ choices.length) :
    (∀ line rest, badMenuLine choices.length line = true →
      ∃ e, (e = Event.retryOutOfRange ∨ e = Event.retryParseFail) ∧
        resolveLoop choices (line :: rest)
          = ([Event.menu (choices.map choiceLabel), Event.promptChoice, e]
              ++ (resolveLoop choices rest).1,
             (resolveLoop choices rest).2)) ∧
    badMenuLine choices.length "-1" = true ∧
    badMenuLine choices.length "abc" = true ∧
    badMenuLine choices.length (String.mk (natDecimal choices.length))
      = true ∧
    (∀ line i rest, parseUsize (rustTrim line) = some i →
      i < choices.length →
      resolveLoop choices (line :: rest)
        = ([Event.menu (choices.map choiceLabel), Event.promptChoice],
           some (i, rest))) ∧
    parseUsize (rustTrim "0") = some 0 ∧
    (∀ bad rest, (∀ b ∈ bad, badMenuLine choices.length b = true) →
      (resolveLoop choices (bad ++ rest)).2
        = (resolveLoop choices rest).2) := by
  refine ⟨?_, rfl, rfl, ?_, ?_, rfl, ?_⟩
  · intro line rest hbad
    unfold badMenuLine at hbad
    cases hp2 : parseUsize (rustTrim line) with
    | none =>
        refine ⟨Event.retryParseFail, Or.inr rfl, ?_⟩
        simp [resolveLoop, hp2]
    | some c =>
        rw [hp2] at hbad
        have hle : choices.length ≤ c := of_decide_eq_true hbad
        refine ⟨Event.retryOutOfRange, Or.inl rfl, ?_⟩
        simp [resolveLoop, hp2, hle]
  · unfold badMenuLine
    rw [rustTrim_mk_digits _ (natDecimal_ne_nil _) (natDecimal_all_digits _),
      parseUsize_mk_of_digits _ (natDecimal_ne_nil _)
        (natDecimal_all_digits _)]
    by_cases hb : choices.length ≤ usizeMax
    · rw [parseDigits_natDecimal hb]
      simp
    · rw [parseDigits_natDecimal_overflow (Nat.lt_of_not_le hb)]
  · intro line i rest hp2 hlt
    simp [resolveLoop, hp2, Nat.not_le.mpr hlt]
  · intro bad
    induction bad with
    | nil => intro rest _; rfl
    | cons b bs ih =>
        intro rest hall
        have hb := hall b (List.mem_cons_self b bs)
        have hrest := ih rest fun x hx => hall x (List.mem_cons_of_mem b hx)
        unfold badMenuLine at hb
        cases hp2 : parseUsize (rustTrim b) with
        | none =>
            simp only [List.cons_append]
            simp [resolveLoop, hp2, hrest]
        | some c =>
            rw [hp2] at hb
            have hle : choices.length ≤ c := of_decide_eq_true hb
            simp only [List.cons_append]
            simp [resolveLoop, hp2, hle, hrest]

/-- Witness for C5 with the two concrete candidates Password and Sso:
"abc" and "2" retry (the run's selection is unchanged), "0" selects
candidate 0 directly. -/
theorem resolver_retries_invalid_and_selects_valid_witness :
    (resolveLoop [LoginChoice.password, LoginChoice.sso]
        (["-1", "abc", "2"] ++ ["0"])).2
      = (resolveLoop [LoginChoice.password, LoginChoice.sso] ["0"]).2 ∧
    resolveLoop [LoginChoice.password, LoginChoice.sso] ["0"]
      = ([Event.menu ["Username and password", "SSO"], Event.promptChoice],
         some (0, [])) := by
  have h := resolver_retries_invalid_and_selects_valid
    [LoginChoice.password, LoginChoice.sso] (by decide)
  constructor
  · exact h.2.2.2.2.2.2 ["-1", "abc", "2"] ["0"] (by decide)
  · have h0 := h.2.2.2.2.1 "0" 0 [] (by decide) (by decide)
    simpa [choiceLabel] using h0

/-- C10: the resolver trims the menu input line before parsing it: for
every candidate list with k >= 2 (its length, as a Rust `Vec` length,
fits in `usize`), every index i < k and every whitespace padding
(leading and trailing, the trailing newline of `read_line` included), a
line consisting of the decimal digits of i surrounded by that padding
selects candidate i instead of retrying. -/
theorem resolver_trims_menu_input (choices : List LoginChoice) (i : Nat)
    (ws1 ws2 : List Char) (rest : List String)
    (hk : 2 ≤ choices.length) (hi : i < choices.length)
    (hlen : choices.length ≤ 2 ^ 64)
    (h1 : ∀ c ∈ ws1, c.isWhitespace = true)
    (h2 : ∀ c ∈ ws2, c.isWhitespace = true) :
    resolveLoop choices (String.mk (ws1 ++ (natDecimal i ++ ws2)) :: rest)
      = ([Event.menu (choices.map choiceLabel), Event.promptChoice],
         some (i, rest)) := by
  have hiu : i ≤ usizeMax := by
    unfold usizeMax
    omega
  have htrim : rustTrim (String.mk (ws1 ++ (natDecimal i ++ ws2)))
      = String.mk (natDecimal i) :=
    rustTrim_padding (natDecimal i) ws1 ws2 (natDecimal_ne_nil i)
      (natDecimal_all_digits i) h1 h2
  have hparse : parseUsize
      (rustTrim (String.mk (ws1 ++ (natDecimal i ++ ws2)))) = some i := by
    rw [htrim,
      parseUsize_mk_of_digits _ (natDecimal_ne_nil i)
        (natDecimal_all_digits i),
      parseDigits_natDecimal hiu]
  simp [resolveLoop, hparse, Nat.not_le.mpr hi]

/-- Witness for C10: the line " 1\n" (space, digit, newline) selects
candidate 1 of two. -/
theorem resolver_trims_menu_input_witness :
    resolveLoop [LoginChoice.password, LoginChoice.sso]
        [String.mk ([' '] ++ (natDecimal 1 ++ ['\n']))]
      = ([Event.menu ["Username and password", "SSO"], Event.promptChoice],
         some (1, [])) := by
  have h := resolver_trims_menu_input
    [LoginChoice.password, LoginChoice.sso] 1 [' '] ['\n'] []
    (by decide) (by decide) (by decide) (by decide) (by decide)
  simpa [choiceLabel] using h
